import Mathlib

/-!
Verification of the ordered-set pattern engine of `usb3_pipe/ordered_set.py`
(Migen HDL) and of the LFPS burst-clock properties checked by
`test/test_lfps.py`.

The Migen modules are embedded as explicit state-transition functions:
combinational outputs become pure functions of the current state and the
tick's inputs, and every `self.sync` block becomes one field of a `step`
function computing the next state from the current one.  Machine counters
are modelled as `Nat`; in the source they are wide enough never to wrap on
the reachable values considered here (each counter is reset to zero before
reaching its declared bound).
-/

namespace USB3Pipe

/-- An ordered-set pattern as consumed by `OrderedSetChecker` /
`OrderedSetGenerator`: `training` is true exactly when
`ordered_set.name in ["TS1", "TS2"]`, and `words` is `mem_init`, the
little-endian 32-bit words of `ordered_set.to_bytes()`. -/
structure OrderedSet where
  training : Bool
  words : List Nat

/-- Number of 32-bit words of the pattern (`mem_depth` in the source). -/
def OrderedSet.depth (os : OrderedSet) : Nat := os.words.length

/-- The `ctrl` marker expected on word 0: `2**4 - 1` for the training
patterns, `1` otherwise. -/
def OrderedSet.firstCtrl (os : OrderedSet) : Nat :=
  if os.training then 2 ^ 4 - 1 else 1

/-- Word of the pattern memory at address `a` (`port.dat_r` when
`port.adr = a`). -/
def OrderedSet.word (os : OrderedSet) (a : Nat) : Nat := os.words.getD a 0

namespace OrderedSetChecker

/-- Registers of `OrderedSetChecker`: memory address `port.adr`, the
repetition counter `count`, and the three latched link-config flags
(present only for training patterns; they simply stay at their reset value
otherwise). All reset to zero / false. -/
structure State where
  adr : Nat
  count : Nat
  reset : Bool
  loopback : Bool
  scrambling : Bool

/-- Reset state of the checker registers. -/
def init : State := ⟨0, 0, false, false, false⟩

/-- Combinational `error_mask`: its reset value is `2**32 - 1`, and for the
training patterns a comb override sets `0xffff00ff` when `port.adr == 1`. -/
def errorMask (os : OrderedSet) (adr : Nat) : Nat :=
  if os.training = true ∧ adr = 1 then 0xffff00ff else 0xffffffff

/-- Combinational `error` signal: it defaults to 0 and, when `sink.valid`,
three successive `If` statements each drive it to 1 (comma check at word 0,
zero-ctrl check elsewhere, masked word comparison). -/
def error (os : OrderedSet) (adr data ctrl : Nat) (valid : Bool) : Bool :=
  if valid = true then
    let e0 := false
    let e1 := if adr = 0 ∧ ctrl ≠ os.firstCtrl then true else e0
    let e2 := if adr ≠ 0 ∧ ctrl ≠ 0 then true else e1
    let e3 := if data &&& errorMask os adr ≠ os.word adr &&& errorMask os adr then true else e2
    e3
  else false

/-- Combinational `detected` output: `count == mem_depth*n_ordered_sets - 1`. -/
def detected (os : OrderedSet) (n : Nat) (s : State) : Bool :=
  decide (s.count = os.depth * n - 1)

/-- Synchronous update of the checker registers for one tick carrying
`(data, ctrl, valid)` on the sink.  The link-config latch fires whenever
`sink.valid & (port.adr == 1)` on a training pattern; the address advances
cyclically on error-free valid ticks and resets to 0 on errors; the counter
increments on error-free valid ticks while not `detected` and resets to 0
otherwise. -/
def step (os : OrderedSet) (n : Nat) (s : State) (data ctrl : Nat) (valid : Bool) : State :=
  { adr := if valid then
             (if error os s.adr data ctrl valid then 0
              else if s.adr = os.depth - 1 then 0 else s.adr + 1)
           else s.adr
    count := if valid then
               (if !(error os s.adr data ctrl valid) && !(detected os n s) then s.count + 1
                else 0)
             else s.count
    reset := if os.training = true ∧ valid = true ∧ s.adr = 1 then data.testBit 8 else s.reset
    loopback := if os.training = true ∧ valid = true ∧ s.adr = 1 then data.testBit 10 else s.loopback
    scrambling := if os.training = true ∧ valid = true ∧ s.adr = 1 then !(data.testBit 11) else s.scrambling }

end OrderedSetChecker

namespace OrderedSetGenerator

/-- Registers of `OrderedSetGenerator`: memory address `port.adr`, the
repetition counter `count` (reset value `mem_depth*n_ordered_sets - 1`) and
the `run` latch. -/
structure State where
  adr : Nat
  count : Nat
  run : Bool

/-- Reset state of the generator registers. -/
def init (os : OrderedSet) (n : Nat) : State := ⟨0, os.depth * n - 1, false⟩

/-- Combinational `done` output: `count == mem_depth*n_ordered_sets - 1`. -/
def done (os : OrderedSet) (n : Nat) (s : State) : Bool :=
  decide (s.count = os.depth * n - 1)

/-- Combinational `source.valid`: `send | ~done`. -/
def valid (os : OrderedSet) (n : Nat) (s : State) (send : Bool) : Bool :=
  send || !(done os n s)

/-- Combinational `link_config` byte: bit 0 = `reset`, bit 1 = `loopback`,
bit 2 = `~scrambling` (zero for non-training patterns, where it is unused). -/
def linkConfig (r l sc : Bool) : Nat :=
  (if r then 1 else 0) + 2 * (if l then 1 else 0) + 4 * (if sc then 0 else 1)

/-- Combinational `source.ctrl`: `first_ctrl` at word 0, else 0. -/
def ctrlOut (os : OrderedSet) (adr : Nat) : Nat :=
  if adr = 0 then os.firstCtrl else 0

/-- Combinational `source.data`: the pattern word, with bits 8..15
overwritten by `link_config` when `port.adr == 1` on a training pattern. -/
def dataOut (os : OrderedSet) (adr : Nat) (r l sc : Bool) : Nat :=
  if os.training = true ∧ adr = 1 then
    (os.word adr &&& 0xffff00ff) ||| (linkConfig r l sc <<< 8)
  else os.word adr

/-- Synchronous update of the generator registers for one tick with request
`send` and consumer `ready`.  The address advances cyclically on
`source.valid & source.ready` ticks and is reset to 0 otherwise; the counter
is cleared on a `send & done` tick (which also sets `run`), frozen on other
`done` ticks (which clear `run`), and incremented otherwise. -/
def step (os : OrderedSet) (n : Nat) (s : State) (send ready : Bool) : State :=
  { adr := if valid os n s send && ready then
             (if s.adr = os.depth - 1 then 0 else s.adr + 1)
           else 0
    count := if send && done os n s then 0
             else if done os n s then s.count
             else s.count + 1
    run := if send && done os n s then true
           else if done os n s then false
           else s.run }

end OrderedSetGenerator

/-- Joint state of an `OrderedSetGenerator` whose stream is fed directly
into an `OrderedSetChecker` for the same pattern. -/
structure SysState where
  g : OrderedSetGenerator.State
  c : OrderedSetChecker.State

/-- One tick of the generator-into-checker composition with `send` held
high, the checker's always-asserted `ready` driving the generator, and
constant link-config inputs `(r, l, sc)`. -/
def sysStep (os : OrderedSet) (n : Nat) (r l sc : Bool) (s : SysState) : SysState :=
  { g := OrderedSetGenerator.step os n s.g true true
    c := OrderedSetChecker.step os n s.c
           (OrderedSetGenerator.dataOut os s.g.adr r l sc)
           (OrderedSetGenerator.ctrlOut os s.g.adr)
           (OrderedSetGenerator.valid os n s.g true) }

/-- State of the composition after `t` ticks from reset. -/
def sysRun (os : OrderedSet) (n : Nat) (r l sc : Bool) : Nat → SysState
  | 0 => ⟨OrderedSetGenerator.init os n, OrderedSetChecker.init⟩
  | t + 1 => sysStep os n r l sc (sysRun os n r l sc t)

/-- A two-word non-training pattern used as concrete input. -/
def osPair : OrderedSet := ⟨false, [3, 5]⟩

/-- A two-word training pattern used as concrete input. -/
def osTrain : OrderedSet := ⟨true, [3, 5]⟩

/-- The `send` input used for a single burst request: asserted on tick 0
only. -/
def sendAt (t : Nat) : Bool := decide (t = 0)

/-- Generator state after `t` ticks of a single-burst run: `send` asserted
on tick 0 only, consumer `ready` always asserted. -/
def burstState (os : OrderedSet) (n : Nat) : Nat → OrderedSetGenerator.State
  | 0 => OrderedSetGenerator.init os n
  | t + 1 => OrderedSetGenerator.step os n (burstState os n t) (sendAt t) true

/-- Generator state after consuming a script of `(send, ready)` tick
inputs. -/
def genRun (os : OrderedSet) (n : Nat) :
    OrderedSetGenerator.State → List (Bool × Bool) → OrderedSetGenerator.State
  | s, [] => s
  | s, i :: rest => genRun os n (OrderedSetGenerator.step os n s i.1 i.2) rest

/-- Number of transferred symbols (ticks with `source.valid & source.ready`)
along a script of `(send, ready)` tick inputs. -/
def genTransfers (os : OrderedSet) (n : Nat) :
    OrderedSetGenerator.State → List (Bool × Bool) → Nat
  | _, [] => 0
  | s, i :: rest =>
      (if OrderedSetGenerator.valid os n s i.1 && i.2 then 1 else 0) +
      genTransfers os n (OrderedSetGenerator.step os n s i.1 i.2) rest

/-- Modelled from the spec: the LFPS burst transmitter (`usb3_pipe/lfps.py`
is not under `src/`, only its test is).  Per the spec the burst clock's full
period is the ratio of the system tick rate `S` to the target burst-clock
frequency `f`, rounded to the nearest tick. -/
def lfpsPeriod (S f : Nat) : Nat := (2 * S + f) / (2 * f)

/-- Modelled from the spec: the duty cycle is held as close to 50/50 as
integer division allows; the low phase takes the longer half of an odd
period. -/
def lfpsLow (S f : Nat) : Nat := lfpsPeriod S f - lfpsPeriod S f / 2

/-- Modelled from the spec: the `tx_pattern` level on tick `t` of a burst
(low for the first `lfpsLow` ticks of each period, then high). -/
def lfpsWave (S f t : Nat) : Bool := decide (lfpsLow S f ≤ t % lfpsPeriod S f)

/-- Accumulator of `burst_clk_checker` in `test/test_lfps.py`: transition
count, counts of one/zero ticks, and the previous `tx_pattern` sample
(initially 0). -/
structure ClkCheck where
  transitions : Nat
  ones : Nat
  zeroes : Nat
  prev : Bool

/-- One loop iteration of `burst_clk_checker` on a non-idle tick whose
`tx_pattern` level is `w`. -/
def clkStep (w : Bool) (st : ClkCheck) : ClkCheck :=
  ⟨st.transitions + (if w ≠ st.prev then 1 else 0),
   st.ones + (if w then 1 else 0),
   st.zeroes + (if w then 0 else 1),
   w⟩

/-- The `burst_clk_checker` accumulator after the first `t` ticks of a
burst. -/
def clkRun (S f : Nat) : Nat → ClkCheck
  | 0 => ⟨0, 0, 0, false⟩
  | t + 1 => clkStep (lfpsWave S f t) (clkRun S f t)

/-- Claim C9's property for one burst of length `L` at tick rate `S` and
burst-clock frequency `f`: the high-level fraction of the burst's ticks is
within 10% of 0.50, and the measured cycle count `2*total/transitions` is
within 10% of `S/f` (the bounds asserted by `burst_clk_checker`). -/
def burstClkOk (S f L : Nat) : Prop :=
  |((clkRun S f L).ones : ℚ) / (((clkRun S f L).ones : ℚ) + ((clkRun S f L).zeroes : ℚ)) -
      1/2| < 1/10 ∧
  |((S : ℚ) / (f : ℚ)) /
      (2 * (((clkRun S f L).ones : ℚ) + ((clkRun S f L).zeroes : ℚ)) /
        ((clkRun S f L).transitions : ℚ)) - 1| < 1/10

/-- Names bound in the scope of `OrderedSetUnit.__init__` in
`ordered_set.py`: the wildcard migen import (which provides `Signal`,
`Module`, `Memory`, `If`), the `stream` import, the three pattern constants,
the module's two other classes, the constructor's parameters `self` and
`serdes`, and the locals it assigns before use. -/
def orderedSetScope : List String :=
  ["Module", "Signal", "Memory", "If", "stream", "TSEQ", "TS1", "TS2",
   "OrderedSetChecker", "OrderedSetGenerator", "OrderedSetUnit", "self", "serdes",
   "tseq_checker", "ts1_checher", "ts2_checker", "ts2_generator"]

/-- The statements of `OrderedSetUnit.__init__` in source order, each with
the names it references.  Index 3 is `self.tx_ts2 = SIgnal()`; the
submodule/wiring section (below the `# # #` separator) starts at index 4. -/
def orderedSetUnitStmts : List (List String) :=
  [["self", "Signal"],
   ["self", "Signal"],
   ["self", "Signal"],
   ["self", "SIgnal"],
   ["tseq_checker", "OrderedSetChecker", "TSEQ"],
   ["ts1_checher", "OrderedSetChecker", "TS1"],
   ["ts2_checker", "OrderedSetChecker", "TS2"],
   ["self", "tseq_checker", "ts1_checher", "ts2_checker"],
   ["self", "serdes", "tseq_checker", "ts1_checker", "ts2_checker"],
   ["ts2_generator", "OrderedSetGenerator", "TS2"],
   ["self", "ts2_generator"],
   ["self", "If", "ts2_generator", "serdes"]]

/-- Index where the submodule wiring of `OrderedSetUnit.__init__` begins
(the first statement after the `# # #` separator). -/
def unitFirstWiringIndex : Nat := 4

/-- Python name resolution over a statement list: the first statement
referencing a name outside the scope raises `NameError` there, and no later
statement executes. -/
def firstUnresolved (scope : List String) : List (List String) → Option (Nat × String)
  | [] => none
  | stmt :: rest =>
    match stmt.find? (fun nm => !(scope.contains nm)) with
    | some nm => some (0, nm)
    | none => (firstUnresolved scope rest).map (fun p => (p.1 + 1, p.2))

/-- A chain of three overriding comb `If` statements that each drive a
signal to 1 equals the disjunction of their conditions. -/
lemma if_chain_or (c1 c2 c3 : Prop) [Decidable c1] [Decidable c2] [Decidable c3] :
    (if c3 then true else if c2 then true else if c1 then true else false) =
      (decide c1 || decide c2 || decide c3) := by
  by_cases h1 : c1 <;> by_cases h2 : c2 <;> by_cases h3 : c3 <;> simp [h1, h2, h3]

/-- The checker's `error` signal as a guarded disjunction of its three
comb conditions. -/
lemma error_eq_disj (os : OrderedSet) (adr data ctrl : Nat) (valid : Bool) :
    OrderedSetChecker.error os adr data ctrl valid =
      (valid &&
        (decide (adr = 0 ∧ ctrl ≠ os.firstCtrl) ||
         decide (adr ≠ 0 ∧ ctrl ≠ 0) ||
         decide (data &&& OrderedSetChecker.errorMask os adr ≠
                 os.word adr &&& OrderedSetChecker.errorMask os adr))) := by
  cases valid
  · simp [OrderedSetChecker.error]
  · simp only [OrderedSetChecker.error, if_pos rfl, Bool.true_and]
    exact if_chain_or _ _ _

/-- Incrementing a cyclic counter: the register update
`If(x == d-1, 0).Else(x+1)` applied at value `t % d` lands on `(t+1) % d`. -/
lemma mod_step (d t : Nat) (hd : 0 < d) :
    (if t % d = d - 1 then 0 else t % d + 1) = (t + 1) % d := by
  have hdm := Nat.div_add_mod t d
  by_cases h : t % d = d - 1
  · rw [if_pos h]
    have ht : t + 1 = d + d * (t / d) := by
      conv_lhs => rw [← hdm, h]
      generalize d * (t / d) = k
      omega
    rw [ht, Nat.add_mul_mod_self_left, Nat.mod_self]
  · rw [if_neg h]
    have hlt : t % d < d := Nat.mod_lt _ hd
    have ht : t + 1 = (t % d + 1) + d * (t / d) := by
      conv_lhs => rw [← hdm]
      generalize d * (t / d) = k
      omega
    rw [ht, Nat.add_mul_mod_self_left]
    exact (Nat.mod_eq_of_lt (by omega)).symm

/-- Flipping a bit that the mask keeps changes the masked value. -/
lemma masked_xor_ne (x m b : Nat) (hb : m.testBit b = true) :
    (x ^^^ 2 ^ b) &&& m ≠ x &&& m := by
  intro hEq
  have h2 : ((x ^^^ 2 ^ b) &&& m).testBit b = (x &&& m).testBit b := by rw [hEq]
  simp only [Nat.testBit_and, Nat.testBit_xor, Nat.testBit_two_pow_self, hb,
    Bool.and_true] at h2
  cases hx : x.testBit b <;> rw [hx] at h2 <;> simp at h2

/-- Overwriting bits 8..15 of a word is invisible under the training mask
`0xffff00ff`, whose bits 8..15 are zero. -/
lemma mask_override (w lc : Nat) (h : lc < 2 ^ 8) :
    ((w &&& 0xffff00ff) ||| (lc <<< 8)) &&& 0xffff00ff = w &&& 0xffff00ff := by
  apply Nat.eq_of_testBit_eq
  intro i
  simp only [Nat.testBit_and, Nat.testBit_or, Nat.testBit_shiftLeft, ge_iff_le]
  by_cases hm : Nat.testBit 0xffff00ff i = true
  · have hz : (decide (8 ≤ i) && lc.testBit (i - 8)) = false := by
      by_cases h8 : 8 ≤ i
      · by_cases h16 : i < 16
        · exfalso
          interval_cases i <;> exact absurd hm (by decide)
        · have hzero : lc.testBit (i - 8) = false := by
            apply Nat.testBit_lt_two_pow
            calc lc < 2 ^ 8 := h
              _ ≤ 2 ^ (i - 8) := Nat.pow_le_pow_right (by norm_num) (by omega)
          simp [hzero]
      · simp [h8]
    rw [hm, hz]
    simp
  · simp only [Bool.not_eq_true] at hm
    rw [hm]
    simp

/-- The generator's `link_config` byte fits in 8 bits. -/
lemma linkConfig_lt (r l sc : Bool) : OrderedSetGenerator.linkConfig r l sc < 2 ^ 8 := by
  cases r <;> cases l <;> cases sc <;> decide

/-- A symbol produced by the generator at address `a` never raises the
checker's `error` when the checker is at the same address of the same
pattern: the ctrl marker matches and the config-byte substitution is
hidden by the training mask. -/
lemma gen_no_error (os : OrderedSet) (a : Nat) (r l sc : Bool) :
    OrderedSetChecker.error os a (OrderedSetGenerator.dataOut os a r l sc)
      (OrderedSetGenerator.ctrlOut os a) true = false := by
  have hdata : OrderedSetGenerator.dataOut os a r l sc &&& OrderedSetChecker.errorMask os a =
      os.word a &&& OrderedSetChecker.errorMask os a := by
    by_cases ht : os.training = true ∧ a = 1
    · simp only [OrderedSetGenerator.dataOut, OrderedSetChecker.errorMask, if_pos ht]
      exact mask_override (os.word a) _ (linkConfig_lt r l sc)
    · simp only [OrderedSetGenerator.dataOut, OrderedSetChecker.errorMask, if_neg ht]
  rw [error_eq_disj]
  by_cases ha : a = 0
  · subst ha
    simp [OrderedSetGenerator.ctrlOut, hdata]
  · simp [OrderedSetGenerator.ctrlOut, ha, hdata]

/-- Invariant of the generator-into-checker composition with `send` held
high and the checker always ready: both cursors track `t mod depth` and the
checker's counter tracks `t mod (depth*n)`. -/
lemma sysRun_inv (os : OrderedSet) (n : Nat) (r l sc : Bool)
    (hd : 0 < os.depth) (hdn : 0 < os.depth * n) (t : Nat) :
    (sysRun os n r l sc t).g.adr = t % os.depth ∧
    (sysRun os n r l sc t).c.adr = t % os.depth ∧
    (sysRun os n r l sc t).c.count = t % (os.depth * n) := by
  induction t with
  | zero =>
    simp [sysRun, OrderedSetGenerator.init, OrderedSetChecker.init]
  | succ t ih =>
    obtain ⟨hg, hc, hcnt⟩ := ih
    have hval : OrderedSetGenerator.valid os n (sysRun os n r l sc t).g true = true := by
      simp [OrderedSetGenerator.valid]
    have herr : OrderedSetChecker.error os (sysRun os n r l sc t).c.adr
        (OrderedSetGenerator.dataOut os (sysRun os n r l sc t).g.adr r l sc)
        (OrderedSetGenerator.ctrlOut os (sysRun os n r l sc t).g.adr) true = false := by
      rw [hc, hg]
      exact gen_no_error os (t % os.depth) r l sc
    refine ⟨?_, ?_, ?_⟩
    · simp only [sysRun, sysStep, OrderedSetGenerator.step, OrderedSetGenerator.valid,
        Bool.true_or, Bool.true_and, if_true, hg]
      exact mod_step os.depth t hd
    · simp only [sysRun, sysStep, OrderedSetChecker.step, hval, herr, if_true]
      simp only [Bool.false_eq_true, if_false, hc]
      exact mod_step os.depth t hd
    · simp only [sysRun, sysStep, OrderedSetChecker.step, OrderedSetChecker.detected, hval,
        herr, if_true, Bool.not_false, Bool.true_and, hcnt]
      have hm := mod_step (os.depth * n) t hdn
      by_cases hdet : t % (os.depth * n) = os.depth * n - 1
      · rw [if_pos hdet] at hm
        rw [← hm]
        simp [hdet]
      · rw [if_neg hdet] at hm
        rw [← hm]
        simp [hdet]

/-- Invariant of the single-burst run: from tick 1 to tick `depth*n` the
cursor tracks `t mod depth` and the repetition counter equals `t - 1`. -/
lemma burst_inv (os : OrderedSet) (n : Nat) (hd : 0 < os.depth) :
    ∀ t, 1 ≤ t → t ≤ os.depth * n →
      (burstState os n t).adr = t % os.depth ∧ (burstState os n t).count = t - 1 := by
  intro t
  induction t with
  | zero => omega
  | succ t ih =>
    intro h1 hle
    by_cases ht : t = 0
    · subst ht
      have hdone : OrderedSetGenerator.done os n (OrderedSetGenerator.init os n) = true := by
        simp [OrderedSetGenerator.done, OrderedSetGenerator.init]
      have hsend : sendAt 0 = true := rfl
      constructor
      · simp only [burstState, OrderedSetGenerator.step, OrderedSetGenerator.valid, hsend,
          Bool.true_or, Bool.true_and, if_true, OrderedSetGenerator.init, Nat.zero_add]
        have := mod_step os.depth 0 hd
        rwa [Nat.zero_mod] at this
      · simp [burstState, OrderedSetGenerator.step, hsend, hdone]
    · have h1t : 1 ≤ t := by omega
      have hlet : t ≤ os.depth * n := by omega
      obtain ⟨hadr, hcnt⟩ := ih h1t hlet
      have hdone : OrderedSetGenerator.done os n (burstState os n t) = false := by
        simp only [OrderedSetGenerator.done, hcnt]
        exact decide_eq_false (by omega)
      have hsend : sendAt t = false := decide_eq_false ht
      constructor
      · simp only [burstState, OrderedSetGenerator.step, OrderedSetGenerator.valid, hsend,
          hdone, Bool.false_or, Bool.not_false, Bool.true_and, if_true, hadr]
        exact mod_step os.depth t hd
      · simp only [burstState, OrderedSetGenerator.step, hsend, hdone, Bool.false_and,
          Bool.false_eq_true, if_false, hcnt]
        omega

/-- C1 is refuted on the code: with a 2-word pattern and N = 1, `detected`
is asserted after the second good symbol, the stream continues with another
error-free symbol, and `detected` deasserts on that very tick because
`count` is reset to 0 (it does not freeze at its maximum). -/
theorem c1_detected_not_sticky_cex :
    OrderedSetChecker.detected osPair 1
      (OrderedSetChecker.step osPair 1 OrderedSetChecker.init 3 1 true) = true ∧
    OrderedSetChecker.error osPair
      (OrderedSetChecker.step osPair 1 OrderedSetChecker.init 3 1 true).adr 5 0 true = false ∧
    (OrderedSetChecker.step osPair 1
      (OrderedSetChecker.step osPair 1 OrderedSetChecker.init 3 1 true) 5 0 true).count = 0 ∧
    OrderedSetChecker.detected osPair 1
      (OrderedSetChecker.step osPair 1
        (OrderedSetChecker.step osPair 1 OrderedSetChecker.init 3 1 true) 5 0 true) = false := by
  decide

/-- C1 (amended): once `count` reaches `depth*N - 1`, `detected` is
asserted and held while no valid symbol arrives; on the next valid tick
`count` resets to 0 and (whenever `depth*N ≥ 2`) `detected` deasserts —
the counter re-arms automatically instead of freezing at its maximum. -/
theorem c1_detected_pulses (os : OrderedSet) (n : Nat) (s : OrderedSetChecker.State)
    (data ctrl : Nat) (h : OrderedSetChecker.detected os n s = true) :
    (OrderedSetChecker.step os n s data ctrl false).count = s.count ∧
    OrderedSetChecker.detected os n (OrderedSetChecker.step os n s data ctrl false) = true ∧
    (OrderedSetChecker.step os n s data ctrl true).count = 0 ∧
    (2 ≤ os.depth * n →
      OrderedSetChecker.detected os n (OrderedSetChecker.step os n s data ctrl true) = false) := by
  refine ⟨?_, ?_, ?_, ?_⟩
  · simp [OrderedSetChecker.step]
  · simp only [OrderedSetChecker.detected, OrderedSetChecker.step] at h ⊢
    simpa using h
  · simp [OrderedSetChecker.step, h]
  · intro h2
    have hc : (OrderedSetChecker.step os n s data ctrl true).count = 0 := by
      simp [OrderedSetChecker.step, h]
    simp only [OrderedSetChecker.detected, hc]
    exact decide_eq_false (by omega)

/-- Witness for the amended C1 at a concrete detected state. -/
theorem c1_detected_pulses_witness :
    OrderedSetChecker.detected osPair 1
      (OrderedSetChecker.step osPair 1 OrderedSetChecker.init 3 1 true) = true ∧
    (OrderedSetChecker.step osPair 1
      (OrderedSetChecker.step osPair 1 OrderedSetChecker.init 3 1 true) 5 0 true).count = 0 :=
  ⟨by decide,
   (c1_detected_pulses osPair 1
     (OrderedSetChecker.step osPair 1 OrderedSetChecker.init 3 1 true) 5 0 (by decide)).2.2.1⟩

/-- C2: evaluating the generator-into-checker composition for a training
pattern at the failing input `reset = 0, loopback = 1, scrambling = 1`:
after the checker consumes word 1 of the first emitted repetition, its
latched flags are `(reset, loopback, scrambling) = (0, 0, 1)` — the latched
`loopback` does not equal the generator's `loopback` input 1, because the
generator packs `loopback` into data bit 9 while the checker samples bit
10. -/
theorem c2_linkconfig_roundtrip_bug :
    (sysRun osTrain 1 false true true 2).c.reset = false ∧
    (sysRun osTrain 1 false true true 2).c.loopback = false ∧
    (sysRun osTrain 1 false true true 2).c.scrambling = true ∧
    (sysRun osTrain 1 false true true 2).c.loopback ≠ true := by
  decide

/-- C3 is refuted on the code: with the checker of a training pattern at
`adr = 1`, a tick whose ctrl marker is wrong (`error` holds) still latches
the link-config flags — data bit 8 is latched into `reset` although the
claim says the previous value (false) must be kept. -/
theorem c3_latch_despite_error_cex :
    OrderedSetChecker.error osTrain 1 1280 3 true = true ∧
    (OrderedSetChecker.step osTrain 2
      (⟨1, 0, false, false, false⟩ : OrderedSetChecker.State) 1280 3 true).reset = true := by
  decide

/-- C3 (amended): on a training pattern the three link-config flags are
latched on every valid tick with `adr = 1`, regardless of the tick's
`error` predicate: `reset` from data bit 8, `loopback` from data bit 10,
`scrambling` from the complement of data bit 11. -/
theorem c3_linkconfig_latched_always (os : OrderedSet) (n : Nat)
    (s : OrderedSetChecker.State) (data ctrl : Nat)
    (ht : os.training = true) (ha : s.adr = 1) :
    (OrderedSetChecker.step os n s data ctrl true).reset = data.testBit 8 ∧
    (OrderedSetChecker.step os n s data ctrl true).loopback = data.testBit 10 ∧
    (OrderedSetChecker.step os n s data ctrl true).scrambling = !(data.testBit 11) := by
  simp [OrderedSetChecker.step, ht, ha]

/-- Witness for the amended C3 at a concrete state and data word. -/
theorem c3_linkconfig_latched_always_witness :
    (OrderedSetChecker.step osTrain 2
      (⟨1, 0, false, false, false⟩ : OrderedSetChecker.State) 1280 3 true).reset =
      Nat.testBit 1280 8 :=
  (c3_linkconfig_latched_always osTrain 2 ⟨1, 0, false, false, false⟩ 1280 3
    (by decide) (by decide)).1

/-- C4 is refuted on the code: on a running tick (counter at 0, not done)
the repetition counter increments from 0 to 1; it neither decreases nor
wraps around to `depth*N - 1`, so it does not decrement. -/
theorem c4_count_increments_cex :
    OrderedSetGenerator.done osPair 2 (⟨0, 0, true⟩ : OrderedSetGenerator.State) = false ∧
    (OrderedSetGenerator.step osPair 2
      (⟨0, 0, true⟩ : OrderedSetGenerator.State) false true).count = 1 ∧
    ¬ ((OrderedSetGenerator.step osPair 2
          (⟨0, 0, true⟩ : OrderedSetGenerator.State) false true).count < (0 : Nat) ∨
       (OrderedSetGenerator.step osPair 2
          (⟨0, 0, true⟩ : OrderedSetGenerator.State) false true).count = osPair.depth * 2 - 1) := by
  decide

/-- C4 (amended): the repetition counter is initialized to `depth*N - 1`
so `done` starts true; while running it increments each tick; `done` holds
exactly when it equals `depth*N - 1`; a `send && done` tick sets `run` and
resets the counter to 0; a `done` tick without `send` clears `run` and
freezes the counter. -/
theorem c4_count_protocol (os : OrderedSet) (n : Nat) (s : OrderedSetGenerator.State)
    (send ready : Bool) :
    OrderedSetGenerator.done os n (OrderedSetGenerator.init os n) = true ∧
    (OrderedSetGenerator.done os n s = true ↔ s.count = os.depth * n - 1) ∧
    (send = true → OrderedSetGenerator.done os n s = true →
      (OrderedSetGenerator.step os n s send ready).run = true ∧
      (OrderedSetGenerator.step os n s send ready).count = 0) ∧
    (send = false → OrderedSetGenerator.done os n s = true →
      (OrderedSetGenerator.step os n s send ready).run = false ∧
      (OrderedSetGenerator.step os n s send ready).count = s.count) ∧
    (OrderedSetGenerator.done os n s = false →
      (OrderedSetGenerator.step os n s send ready).count = s.count + 1) := by
  refine ⟨?_, ?_, ?_, ?_, ?_⟩
  · simp [OrderedSetGenerator.done, OrderedSetGenerator.init]
  · simp [OrderedSetGenerator.done]
  · intro hs hdone
    subst hs
    simp [OrderedSetGenerator.step, hdone]
  · intro hs hdone
    subst hs
    simp [OrderedSetGenerator.step, hdone]
  · intro hdone
    simp [OrderedSetGenerator.step, hdone]

/-- Witness for the amended C4 at concrete generator states. -/
theorem c4_count_protocol_witness :
    OrderedSetGenerator.done osPair 1 (OrderedSetGenerator.init osPair 1) = true ∧
    (OrderedSetGenerator.step osPair 1
      (⟨0, 0, true⟩ : OrderedSetGenerator.State) false true).count = 1 :=
  ⟨(c4_count_protocol osPair 1 ⟨0, 0, true⟩ false true).1,
   (c4_count_protocol osPair 1 ⟨0, 0, true⟩ false true).2.2.2.2 (by decide)⟩

/-- C5: feeding a generator's stream straight into a checker for the same
pattern and repeat count, with ready always asserted and both at reset,
`detected` becomes true within `depth*N` ticks of the first transferred
symbol (which is transferred on tick 0). -/
theorem c5_roundtrip_detected (os : OrderedSet) (n : Nat)
    (hd : 0 < os.depth) (hn : 0 < n) (r l sc : Bool) :
    ∃ t, t < os.depth * n ∧
      OrderedSetChecker.detected os n (sysRun os n r l sc t).c = true := by
  have hdn : 0 < os.depth * n := Nat.mul_pos hd hn
  refine ⟨os.depth * n - 1, by omega, ?_⟩
  have h := (sysRun_inv os n r l sc hd hdn (os.depth * n - 1)).2.2
  rw [OrderedSetChecker.detected, h,
    Nat.mod_eq_of_lt (show os.depth * n - 1 < os.depth * n by omega)]
  simp

/-- Witness for C5 at a concrete pattern and repeat count. -/
theorem c5_roundtrip_detected_witness :
    0 < osPair.depth ∧ (0:Nat) < 1 ∧
    ∃ t, t < osPair.depth * 1 ∧
      OrderedSetChecker.detected osPair 1 (sysRun osPair 1 false false false t).c = true :=
  ⟨by decide, by decide, c5_roundtrip_detected osPair 1 (by decide) (by decide) false false false⟩

/-- C6 is refuted on the code: a burst started on tick 0 whose consumer
deasserts `ready` on tick 1 reaches `done` after transferring a single
symbol, which is not a whole number of repetitions of the 2-word pattern;
the counter runs on ticks without transfers. -/
theorem c6_truncation_cex :
    OrderedSetGenerator.done osPair 1 (genRun osPair 1 (OrderedSetGenerator.init osPair 1)
      [(true, true), (false, false)]) = true ∧
    genTransfers osPair 1 (OrderedSetGenerator.init osPair 1) [(true, true), (false, false)] = 1 ∧
    ¬ (osPair.depth ∣
        genTransfers osPair 1 (OrderedSetGenerator.init osPair 1) [(true, true), (false, false)]) := by
  decide

/-- C6 (amended): when the consumer's ready stays asserted, a burst started
at tick 0 keeps `valid` high with the cursor at `t mod depth` for exactly
`depth*N` ticks and reaches `done` exactly at tick `depth*N` — N complete
repetitions.  The cursor advances `(adr+1) mod depth` on transfer ticks and
is reset to 0 on non-transfer ticks; with backpressure mid-burst the
transferred symbols need not form whole repetitions. -/
theorem c6_whole_repetitions (os : OrderedSet) (n : Nat)
    (hd : 0 < os.depth) (hn : 0 < n) :
    (∀ t, t < os.depth * n →
      OrderedSetGenerator.valid os n (burstState os n t) (sendAt t) = true ∧
      (burstState os n t).adr = t % os.depth) ∧
    OrderedSetGenerator.done os n (burstState os n (os.depth * n)) = true ∧
    (∀ t, 1 ≤ t → t < os.depth * n →
      OrderedSetGenerator.done os n (burstState os n t) = false) ∧
    (∀ s : OrderedSetGenerator.State, ∀ send : Bool,
      (OrderedSetGenerator.step os n s send false).adr = 0) ∧
    (∀ s : OrderedSetGenerator.State, ∀ send : Bool,
      OrderedSetGenerator.valid os n s send = true → s.adr < os.depth →
      (OrderedSetGenerator.step os n s send true).adr = (s.adr + 1) % os.depth) := by
  have hdn : 0 < os.depth * n := Nat.mul_pos hd hn
  refine ⟨?_, ?_, ?_, ?_, ?_⟩
  · intro t htlt
    by_cases ht : t = 0
    · subst ht
      constructor
      · simp [OrderedSetGenerator.valid, sendAt]
      · simp [burstState, OrderedSetGenerator.init]
    · have h1 : 1 ≤ t := by omega
      obtain ⟨hadr, hcnt⟩ := burst_inv os n hd t h1 (by omega)
      refine ⟨?_, hadr⟩
      have hdone : OrderedSetGenerator.done os n (burstState os n t) = false := by
        simp only [OrderedSetGenerator.done, hcnt]
        exact decide_eq_false (by omega)
      simp [OrderedSetGenerator.valid, hdone]
  · obtain ⟨hadr, hcnt⟩ := burst_inv os n hd (os.depth * n) (by omega) (le_refl _)
    simp [OrderedSetGenerator.done, hcnt]
  · intro t h1 hlt
    obtain ⟨hadr, hcnt⟩ := burst_inv os n hd t h1 (by omega)
    simp only [OrderedSetGenerator.done, hcnt]
    exact decide_eq_false (by omega)
  · intro s send
    simp [OrderedSetGenerator.step]
  · intro s send hv hlt
    simp only [OrderedSetGenerator.step, hv, Bool.true_and, if_true]
    by_cases he : s.adr = os.depth - 1
    · rw [if_pos he, he]
      have hsum : os.depth - 1 + 1 = os.depth := by omega
      rw [hsum, Nat.mod_self]
    · rw [if_neg he]
      exact (Nat.mod_eq_of_lt (by omega)).symm

/-- Witness for the amended C6 at a concrete pattern. -/
theorem c6_whole_repetitions_witness :
    OrderedSetGenerator.done osPair 1 (burstState osPair 1 (osPair.depth * 1)) = true ∧
    (burstState osPair 1 1).adr = 1 % osPair.depth :=
  ⟨(c6_whole_repetitions osPair 1 (by decide) (by decide)).2.1,
   ((c6_whole_repetitions osPair 1 (by decide) (by decide)).1 1 (by decide)).2⟩

/-- C7: on every tick the checker's `error` equals the claimed predicate:
valid, and (comma mismatch at word 0, or nonzero ctrl elsewhere, or masked
data mismatch), with the mask all-ones except `0xffff00ff` on word 1 of a
training pattern. -/
theorem c7_error_characterization (os : OrderedSet) (adr data ctrl : Nat) (valid : Bool) :
    OrderedSetChecker.error os adr data ctrl valid =
      (valid &&
        (decide (adr = 0 ∧ ctrl ≠ os.firstCtrl) ||
         decide (adr ≠ 0 ∧ ctrl ≠ 0) ||
         decide (data &&& (if os.training = true ∧ adr = 1 then 0xffff00ff else 0xffffffff) ≠
                 os.word adr &&& (if os.training = true ∧ adr = 1 then 0xffff00ff else 0xffffffff)))) := by
  rw [error_eq_disj]
  rfl

/-- C8: a valid tick whose data corrupts exactly one unmasked bit of the
expected word, or whose ctrl marker is wrong, resets both the repetition
counter and the cursor to zero. -/
theorem c8_corrupted_tick_resets (os : OrderedSet) (n : Nat) (s : OrderedSetChecker.State)
    (data ctrl b : Nat)
    (hbad : (data = os.word s.adr ^^^ 2 ^ b ∧
              (OrderedSetChecker.errorMask os s.adr).testBit b = true)
          ∨ ((s.adr = 0 ∧ ctrl ≠ os.firstCtrl) ∨ (s.adr ≠ 0 ∧ ctrl ≠ 0))) :
    (OrderedSetChecker.step os n s data ctrl true).count = 0 ∧
    (OrderedSetChecker.step os n s data ctrl true).adr = 0 := by
  have herr : OrderedSetChecker.error os s.adr data ctrl true = true := by
    rw [error_eq_disj]
    rcases hbad with ⟨hdata, hmask⟩ | (h | h)
    · have hne : data &&& OrderedSetChecker.errorMask os s.adr ≠
          os.word s.adr &&& OrderedSetChecker.errorMask os s.adr := by
        rw [hdata]
        exact masked_xor_ne _ _ _ hmask
      simp [hne]
    · simp [h.1, h.2]
    · simp [h.1, h.2]
  constructor
  · simp [OrderedSetChecker.step, herr]
  · simp [OrderedSetChecker.step, herr]

/-- Witness for C8: flipping bit 1 of the expected first word. -/
theorem c8_corrupted_tick_resets_witness :
    (OrderedSetChecker.step osPair 1
      (⟨0, 0, false, false, false⟩ : OrderedSetChecker.State) (3 ^^^ 2 ^ 1) 1 true).count = 0 ∧
    (OrderedSetChecker.step osPair 1
      (⟨0, 0, false, false, false⟩ : OrderedSetChecker.State) (3 ^^^ 2 ^ 1) 1 true).adr = 0 :=
  c8_corrupted_tick_resets osPair 1 ⟨0, 0, false, false, false⟩ (3 ^^^ 2 ^ 1) 1 1
    (Or.inl ⟨rfl, by decide⟩)

/-- C9 is refuted as universally stated: a burst of length 3 at tick rate
`S = 3` and frequency `f = 1` has an odd derived period (3 ticks), so the
high-level fraction is 1/3, off 0.50 by 1/6 > 10%. -/
theorem c9_duty_cex : ¬ burstClkOk 3 1 3 := by
  intro hok
  obtain ⟨h1, -⟩ := hok
  rw [show clkRun 3 1 3 = ⟨1, 1, 2, true⟩ from rfl] at h1
  norm_num [abs_lt] at h1

/-- When the target frequency divides the tick rate an even number `2*h` of
times, the derived period is exactly `2*h` ticks. -/
lemma lfpsPeriod_exact (f h : Nat) (hf : 0 < f) :
    lfpsPeriod (f * (2 * h)) f = 2 * h := by
  unfold lfpsPeriod
  rw [show 2 * (f * (2 * h)) + f = f + 2 * f * (2 * h) from by ring]
  rw [Nat.add_mul_div_left _ _ (by omega : 0 < 2 * f)]
  rw [Nat.div_eq_of_lt (by omega)]
  omega

/-- With an even period `2*h` the low phase lasts exactly `h` ticks. -/
lemma lfpsLow_exact (f h : Nat) (hf : 0 < f) :
    lfpsLow (f * (2 * h)) f = h := by
  unfold lfpsLow
  rw [lfpsPeriod_exact f h hf]
  omega

/-- Level of the even-period wave inside any period: low for the first `h`
ticks, high for the next `h`. -/
lemma lfpsWave_eq (f h : Nat) (hf : 0 < f) (q j : Nat) (hj : j < 2 * h) :
    lfpsWave (f * (2 * h)) f (2 * h * q + j) = decide (h ≤ j) := by
  unfold lfpsWave
  rw [lfpsPeriod_exact f h hf, lfpsLow_exact f h hf,
    Nat.mul_add_mod, Nat.mod_eq_of_lt hj]

/-- Running `burst_clk_checker` across `j ≥ 1` ticks of constant level `w`
adds one transition when the level changes and accumulates `j` ticks in the
matching counter. -/
lemma clkRun_const_seg (S f : Nat) (w : Bool) (t0 : Nat) :
    ∀ j, 1 ≤ j → (∀ i, i < j → lfpsWave S f (t0 + i) = w) →
      clkRun S f (t0 + j) =
        ⟨(clkRun S f t0).transitions + (if w = (clkRun S f t0).prev then 0 else 1),
         (clkRun S f t0).ones + (if w then j else 0),
         (clkRun S f t0).zeroes + (if w then 0 else j),
         w⟩ := by
  intro j
  induction j with
  | zero => omega
  | succ j ih =>
    intro _ hw
    by_cases hj : j = 0
    · subst hj
      show clkStep (lfpsWave S f t0) (clkRun S f t0) = _
      rw [show lfpsWave S f t0 = w from by simpa using hw 0 (by omega)]
      cases w <;> cases hp : (clkRun S f t0).prev <;>
        simp [clkStep, hp]
    · have hj1 : 1 ≤ j := by omega
      have ihj := ih hj1 (fun i hi => hw i (by omega))
      show clkStep (lfpsWave S f (t0 + j)) (clkRun S f (t0 + j)) = _
      rw [hw j (by omega), ihj]
      cases w <;> cases hp : (clkRun S f t0).prev <;>
        simp [clkStep, hp, ClkCheck.mk.injEq] <;> omega

/-- Closed form of `burst_clk_checker` over whole periods of the
even-period wave: after `k ≥ 1` periods it has counted `2*k - 1`
transitions and `h*k` ticks of each level, ending on a high tick. -/
lemma clkRun_closed (f h : Nat) (hf : 0 < f) (hh : 0 < h) :
    ∀ k, 1 ≤ k →
      clkRun (f * (2 * h)) f (2 * h * k) = ⟨2 * k - 1, h * k, h * k, true⟩ := by
  intro k
  induction k with
  | zero => omega
  | succ k ih =>
    intro _
    have hw1 : ∀ i, i < h → lfpsWave (f * (2 * h)) f (2 * h * k + i) = false := by
      intro i hi
      rw [lfpsWave_eq f h hf k i (by omega)]
      exact decide_eq_false (by omega)
    have hw2 : ∀ i, i < h → lfpsWave (f * (2 * h)) f ((2 * h * k + h) + i) = true := by
      intro i hi
      rw [Nat.add_assoc, lfpsWave_eq f h hf k (h + i) (by omega)]
      exact decide_eq_true (by omega)
    have hseg1 := clkRun_const_seg (f * (2 * h)) f false (2 * h * k) h hh hw1
    have hseg2 := clkRun_const_seg (f * (2 * h)) f true (2 * h * k + h) h hh hw2
    rw [show 2 * h * (k + 1) = (2 * h * k + h) + h from by ring, hseg2, hseg1]
    by_cases hk : k = 0
    · subst hk
      simp [clkRun, ClkCheck.mk.injEq, Nat.mul_zero, Nat.mul_one]
    · rw [ih (by omega)]
      simp only [ClkCheck.mk.injEq]
      simp [Nat.mul_succ]
      omega

/-- C9 (amended): when the burst-clock frequency divides the tick rate an
even number `2*h` of times and the burst spans `k ≥ 6` whole periods, the
high-level fraction is exactly 0.50 and the measured cycle count
`2*total/transitions` is within 10% of `S/f` (its error is `1/(2k)`). -/
theorem c9_burst_clk (f h k : Nat) (hf : 0 < f) (hh : 0 < h) (hk : 6 ≤ k) :
    burstClkOk (f * (2 * h)) f (2 * h * k) := by
  have hrun := clkRun_closed f h hf hh k (by omega)
  have hones : (((clkRun (f * (2 * h)) f (2 * h * k)).ones : ℕ) : ℚ) = ((h * k : ℕ) : ℚ) := by
    rw [hrun]
  have hzero : (((clkRun (f * (2 * h)) f (2 * h * k)).zeroes : ℕ) : ℚ) = ((h * k : ℕ) : ℚ) := by
    rw [hrun]
  have htr : (((clkRun (f * (2 * h)) f (2 * h * k)).transitions : ℕ) : ℚ) =
      ((2 * k - 1 : ℕ) : ℚ) := by
    rw [hrun]
  have hka : ((h * k : ℕ) : ℚ) = (h : ℚ) * (k : ℚ) := by push_cast; ring
  have htr2 : ((2 * k - 1 : ℕ) : ℚ) = 2 * (k : ℚ) - 1 := by
    rw [Nat.cast_sub (by omega : 1 ≤ 2 * k)]
    push_cast
    ring
  have hS : ((f * (2 * h) : ℕ) : ℚ) = (f : ℚ) * (2 * (h : ℚ)) := by push_cast; ring
  have haq : (0 : ℚ) < (h : ℚ) := by exact_mod_cast hh
  have hbq : (0 : ℚ) < (k : ℚ) := by exact_mod_cast (show 0 < k by omega)
  have hb6 : (6 : ℚ) ≤ (k : ℚ) := by exact_mod_cast hk
  have hfq : (0 : ℚ) < (f : ℚ) := by exact_mod_cast hf
  rw [burstClkOk, hones, hzero, htr, hka, htr2, hS]
  constructor
  · have hd : (h : ℚ) * (k : ℚ) / ((h : ℚ) * (k : ℚ) + (h : ℚ) * (k : ℚ)) = 1 / 2 := by
      rw [← two_mul, mul_comm (2 : ℚ) ((h : ℚ) * (k : ℚ)), div_mul_eq_div_div,
        div_self (by positivity : (h : ℚ) * (k : ℚ) ≠ 0)]
    rw [hd]
    norm_num
  · have hE : (f : ℚ) * (2 * (h : ℚ)) / (f : ℚ) = 2 * (h : ℚ) :=
      mul_div_cancel_left₀ _ (ne_of_gt hfq)
    rw [hE]
    have key : 2 * (h : ℚ) /
        (2 * ((h : ℚ) * (k : ℚ) + (h : ℚ) * (k : ℚ)) / (2 * (k : ℚ) - 1)) - 1 =
        -(1 / (2 * (k : ℚ))) := by
      rw [div_div_eq_mul_div, div_sub_one (by positivity : 2 * ((h:ℚ)*(k:ℚ) + (h:ℚ)*(k:ℚ)) ≠ 0)]
      field_simp
      ring
    rw [key, abs_neg, abs_of_pos (by positivity : (0 : ℚ) < 1 / (2 * (k : ℚ)))]
    rw [div_lt_div_iff₀ (by positivity) (by norm_num)]
    linarith

/-- Witness for the amended C9 at the test's half-period of 2 ticks and a
burst of six periods. -/
theorem c9_burst_clk_witness : burstClkOk (1 * (2 * 2)) 1 (2 * 2 * 6) :=
  c9_burst_clk 1 2 6 (by decide) (by decide) (by decide)

/-- C10: executing the constructor statements of `OrderedSetUnit` hits the
undefined name `SIgnal` at statement index 3 (the `tx_ts2` declaration),
which precedes every submodule-wiring statement; since name resolution does
not depend on the `serdes` value, construction raises `NameError` for every
argument and the composed unit can never be instantiated. -/
theorem c10_unit_name_error :
    firstUnresolved orderedSetScope orderedSetUnitStmts = some (3, "SIgnal") ∧
    3 < unitFirstWiringIndex := by
  constructor
  · rfl
  · decide

end USB3Pipe
